import Mathlib

/-!
Verification of the waveform decoding and calibration engine of
PyDICOM-Waveform-Extractor (`dcm_waveform_extractor/data_extraction.py`).

The Python source is shallowly embedded: DICOM element values become an
inductive `DVal`, datasets become association lists from tags to values,
numeric data is modelled exactly over `ℚ` (the source computes with Python
floats; all properties here are about the algebraic structure of the
computation), byte buffers become `List Nat`, and every fallible Python
operation returns `Except`/`Option` with the exception classes the source
distinguishes.
-/

/-- A DICOM attribute tag `(group, element)`, e.g. `(0x003a, 0x0210)`. -/
abbrev Tag := Nat × Nat

/-- A DICOM element value as observed by the extractor.

`num q` is a numeric value; `str s asFloat` is a string value together with
the result Python's `float()` would give on it (`none` when `float()` raises
`ValueError`); `seq n cm` is a nested sequence, recorded by its length `n`
and by the value `cm` that `value[0].get([0x0008, 0x0104]).value` resolves
to (`none` when that lookup raises), which is all the source ever reads from
a nested sequence (line 128). -/
inductive DVal where
  | num (q : ℚ)
  | str (s : String) (asFloat : Option ℚ)
  | seq (n : Nat) (cm : Option DVal)

/-- One item of a channel definition sequence: its tag-addressable elements.
`item.get(tag).value` is modelled by association-list lookup. -/
abbrev DItem := List (Tag × DVal)

/-- `item.get(tag_path)`, returning the element's value when the tag is
present and `none` otherwise (pydicom's `Dataset.get` returns `None` for an
absent tag, so the subsequent `.value` raises `AttributeError`). -/
def dget (item : DItem) (t : Tag) : Option DVal :=
  (item.find? (fun p => p.1 == t)).map Prod.snd

/-- Python `len(value)`: defined for strings and sequences, raises
`TypeError` (modelled as `none`) on numbers. -/
def pyLen : DVal → Option Nat
  | .num _ => none
  | .str s _ => some s.length
  | .seq n _ => some n

/-- `value[0].get([0x0008, 0x0104]).value` on a value known to have positive
length: on a sequence this is the recorded code-meaning value (`none` when
the nested lookup fails with `AttributeError`); on a string, `value[0]` is a
one-character string without a `.get` attribute, so the access raises
`AttributeError` (`none`). -/
def firstCodeMeaning : DVal → Option DVal
  | .num _ => none
  | .str _ _ => none
  | .seq _ cm => cm

/-- ASCII upper-casing of one character, as Python's `str.upper` acts on the
ASCII placeholder text. -/
def upperChar (c : Char) : Char :=
  if c.toNat ≥ 97 ∧ c.toNat ≤ 122 then Char.ofNat (c.toNat - 32) else c

/-- ASCII upper-casing of a string (Python `str.upper` on ASCII input). -/
def upperStr (s : String) : String := ⟨s.data.map upperChar⟩

/-- The fallback placeholder `f"unk.{default}_{idx}".upper()` (line 135);
`defaultRepr` is the Python string form of the `default` argument
(`"label"`, `"0"`, `"1.0"`, ...). -/
def placeholder (defaultRepr : String) (idx : Nat) : String :=
  upperStr ("unk." ++ defaultRepr ++ "_" ++ toString idx)

/-- A value appended to the result list of `safe_extract_channel_def`:
a float-coerced number, a value kept as-is (string default, no coercion),
or a fallback placeholder string. -/
inductive ExtVal where
  | num (q : ℚ)
  | other (v : DVal)
  | fallback (s : String)

/-- Outcome of the `try` body for one item of the sequence: a value is
appended; or an `AttributeError`/`IndexError`/`TypeError` is caught by
line 133 and a placeholder is appended; or a `ValueError` (not in the caught
tuple) propagates out of the whole function. -/
inductive ItemOutcome where
  | ok (v : ExtVal)
  | caught
  | raise (msg : String)

/-- The `try` body of `safe_extract_channel_def` for one item (lines
123-132): look up the tag, optionally descend into the nested sequence, and
coerce to `float` unless the default is a string. -/
def extractOne (defaultIsStr : Bool) (nested : Bool) (item : DItem) (tagPath : Tag) :
    ItemOutcome :=
  match dget item tagPath with
  | none => .caught
  | some v =>
    let stepNested : Option DVal :=
      if nested then
        match pyLen v with
        | none => none
        | some n => if n > 0 then firstCodeMeaning v else some v
      else some v
    match stepNested with
    | none => .caught
    | some v' =>
      if defaultIsStr then .ok (.other v')
      else
        match v' with
        | .num q => .ok (.num q)
        | .str s f => match f with
          | some q => .ok (.num q)
          | none => .raise ("ValueError: could not convert string to float: " ++ s)
        | .seq _ _ => .caught

/-- The loop of `safe_extract_channel_def` (lines 120-137), carrying the
1-based counter `idx`. A `raise` outcome propagates immediately, discarding
the results accumulated so far, exactly as a Python exception would. -/
def safeExtractAux (defaultRepr : String) (defaultIsStr : Bool) (nested : Bool)
    (tagPath : Tag) : List DItem → Nat → Except String (List ExtVal)
  | [], _ => .ok []
  | item :: rest, idx =>
    match extractOne defaultIsStr nested item tagPath with
    | .raise msg => .error msg
    | .ok v =>
      (safeExtractAux defaultRepr defaultIsStr nested tagPath rest (idx + 1)).map
        (fun l => v :: l)
    | .caught =>
      (safeExtractAux defaultRepr defaultIsStr nested tagPath rest (idx + 1)).map
        (fun l => ExtVal.fallback (placeholder defaultRepr idx) :: l)

/-- `safe_extract_channel_def(sequence, tag_path, default, nested)` (lines
107-137). The Python `default` argument is represented by its string form
`defaultRepr` (used only inside placeholders) and by `defaultIsStr`
(`isinstance(default, str)`, which decides whether `float()` is applied).
An uncaught `ValueError` is an `Except.error`. -/
def safe_extract_channel_def (sequence : List DItem) (tagPath : Tag)
    (defaultRepr : String) (defaultIsStr : Bool) (nested : Bool) :
    Except String (List ExtVal) :=
  safeExtractAux defaultRepr defaultIsStr nested tagPath sequence 1

/-! ### Sample decoder (lines 285-295)

`np.frombuffer(waveform_data, np.int16)` followed by
`reshape((int(n / channel_count), channel_count))` and the calibration
`(baseline + parsed) * sensitivity * correction_factor`. -/

/-- One little-endian signed 16-bit integer from a byte pair. -/
def int16OfBytes (lo hi : Nat) : Int :=
  let u := lo + 256 * hi
  if u < 32768 then (u : Int) else (u : Int) - 65536

/-- `np.frombuffer(buf, np.int16)`: interpret the byte string as int16
little-endian values; `none` models the `ValueError` numpy raises when the
byte length is not a multiple of the 2-byte element size. -/
def fromBufferInt16 : List Nat → Option (List Int)
  | [] => some []
  | [_] => none
  | lo :: hi :: rest => (fromBufferInt16 rest).map (fun l => int16OfBytes lo hi :: l)

/-- Row-major regrouping of a flat list into `r` rows of `c` elements each:
the reshape `(r, c)` of a flat numpy array. -/
def chunks : Nat → Nat → List Int → List (List Int)
  | 0, _, _ => []
  | r + 1, c, l => l.take c :: chunks r c (l.drop c)

/-- Calibration of one sample row (line 293): per channel `j`, the numpy
broadcast computes `(baseline[j] + raw[j]) * sensitivity[j] * correction[j]`. -/
def calibRow (b s k : List ℚ) (row : List Int) : List ℚ :=
  List.zipWith (fun (r : Int) (p : ℚ × ℚ × ℚ) => (p.1 + (r : ℚ)) * p.2.1 * p.2.2)
    row (b.zip (s.zip k))

/-- The custom-parser decode of one channel group's raw buffer (lines
285-293): `frombuffer` (error when the byte count is odd), `reshape` into
`(int(n / channel_count), channel_count)` (`ZeroDivisionError` when the
channel count is zero, `ValueError` when the element count is not a multiple
of the channel count, since then `int(n/c) * c ≠ n`), then the calibration
broadcast. -/
def customDecode (c : Nat) (buf : List Nat) (b s k : List ℚ) :
    Except String (List (List ℚ)) :=
  match fromBufferInt16 buf with
  | none => .error "ValueError: buffer size must be a multiple of element size"
  | some flat =>
    if c = 0 then .error "ZeroDivisionError: division by zero"
    else if flat.length % c ≠ 0 then .error "ValueError: cannot reshape array"
    else .ok ((chunks (flat.length / c) c flat).map (calibRow b s k))

/-- One row of the delegated decode: the library applies the per-channel
linear calibration as a gain `sensitivity * correction` and an offset
`baseline * gain` to each raw count. -/
def gainOffsetRow (b s k : List ℚ) (row : List Int) : List ℚ :=
  List.zipWith (fun (r : Int) (p : ℚ × ℚ × ℚ) =>
      (r : ℚ) * (p.2.1 * p.2.2) + p.1 * (p.2.1 * p.2.2))
    row (b.zip (s.zip k))

/-- Modelled from the spec: the delegated decode path `dcm.waveform_array(i_w)`
(line 295) is implemented by the external pydicom library, whose code is not
part of this repository. Spec §4.2: this path "yields pre-decoded physical
values directly" from the same int16 interleaved buffer and "must satisfy
the same post-condition (physical value formula)"; it is modelled as the
reshape of the buffer followed by the per-channel gain/offset form of the
linear calibration. -/
def libraryDecode (c : Nat) (buf : List Nat) (b s k : List ℚ) :
    Except String (List (List ℚ)) :=
  match fromBufferInt16 buf with
  | none => .error "ValueError: buffer size must be a multiple of element size"
  | some flat =>
    if c = 0 then .error "ZeroDivisionError: division by zero"
    else if flat.length % c ≠ 0 then .error "ValueError: cannot reshape array"
    else .ok ((chunks (flat.length / c) c flat).map (gainOffsetRow b s k))

/-- Strategy selection by the `custom_parser` flag (lines 285-295). -/
def decodeStrategy (custom : Bool) (c : Nat) (buf : List Nat) (b s k : List ℚ) :
    Except String (List (List ℚ)) :=
  if custom then customDecode c buf b s k else libraryDecode c buf b s k

/-! ### Time axis builder (lines 297-303) and per-group table assembly -/

/-- `np.arange(0, stop, step)` over exact rationals: `⌈stop / step⌉` values
`i * step` for `i = 0, 1, ...` (numpy's length formula
`ceil((stop - start) / step)`, clamped at zero). -/
def arange (stop step : ℚ) : List ℚ :=
  (List.range (⌈stop / step⌉).toNat).map (fun i : ℕ => (i : ℚ) * step)

/-- Length reconciliation (lines 299-303): when the time vector's length
differs from the decoded matrix's row count, both are truncated to the
shorter length; otherwise both pass through unchanged. -/
def reconcile (time : List ℚ) (rows : List (List ℚ)) : List ℚ × List (List ℚ) :=
  if time.length = rows.length then (time, rows)
  else
    let m := min time.length rows.length
    (time.take m, rows.take m)

/-- Column `j` of the decoded matrix, `parsed_data[:, j]`. -/
def matCol (rows : List (List ℚ)) (j : Nat) : List ℚ :=
  rows.map (fun r => r.getD j 0)

/-- A pandas DataFrame, modelled as its ordered list of named columns. -/
abbrev Table := List (String × List ℚ)

/-- DataFrame assembly (lines 305-311): the time column first, then one
column per channel label, in label order, holding that channel's matrix
column. -/
def dfCols (timeCol : String) (time : List ℚ) (labels : List String)
    (rows : List (List ℚ)) : Table :=
  (timeCol, time) :: labels.enum.map (fun p => (p.2, matCol rows p.1))

/-- Python `str.startswith`, by character list. -/
def startswith (p s : String) : Bool := p.data.isPrefixOf s.data

/-- Channel filter (lines 315-318): `selected_cols` is the time column
followed by every column of the DataFrame (the time column included) whose
name starts with one of the accepted prefixes; `df[selected_cols]` picks
those columns by name, in the selected order. -/
def filterDf (accepted : List String) (timeCol : String) (df : Table) : Table :=
  let selected := timeCol ::
    (df.map Prod.fst).filter (fun nm => accepted.any (fun a => startswith a nm))
  selected.map (fun nm => (nm, (((df.find? (fun p => p.1 == nm)).map Prod.snd).getD [])))

/-- One item of the waveform sequence (lines 251-269), after channel
definition extraction: the group identifier, the sampling frequency, the
channel labels as column-name strings, the three numeric calibration
vectors, and the raw sample buffer. This models the conforming case in
which `safe_extract_channel_def` returned a string per label and a float per
calibration entry; `channel_count = len(channel_definition_sequence)`
coincides with `labels.length` because the extractor returns one value per
channel. -/
structure WGroup where
  name : String
  freq : ℚ
  labels : List String
  baseline : List ℚ
  sensitivity : List ℚ
  correction : List ℚ
  buf : List Nat

/-- The body of the per-group loop (lines 251-326) for one group: decode
with the configured strategy, build and reconcile the time axis, assemble
the DataFrame, then apply the channel filter. `.error` is an uncaught
exception escaping the loop; `.ok none` is the `continue` at line 320 that
drops a group absent from the supplied mapping; the per-row `DateTime`
column appended at lines 321-324 carries no property treated here and is
not modelled. -/
def processGroup (custom : Bool) (relevant : Option (List (String × List String)))
    (timeCol : String) (g : WGroup) : Except String (Option Table) :=
  match decodeStrategy custom g.labels.length g.buf g.baseline g.sensitivity g.correction with
  | .error e => .error e
  | .ok rows =>
    let time := arange ((rows.length : ℚ) / g.freq) (1 / g.freq)
    let tr := reconcile time rows
    let df := dfCols timeCol tr.1 g.labels tr.2
    match relevant with
    | none => .ok (some df)
    | some m =>
      match m.lookup g.name with
      | some accepted => .ok (some (filterDf accepted timeCol df))
      | none => .ok none

/-- One step of the aggregation: run the loop body and, when it produced a
table, record it under the group's identifier
(`waveform_df_dict[channel_group] = df`, line 326). -/
def accumGroup (custom : Bool) (relevant : Option (List (String × List String)))
    (timeCol : String) (acc : List (String × Table)) (g : WGroup) :
    Except String (List (String × Table)) :=
  (processGroup custom relevant timeCol g).map
    (fun o => match o with
      | none => acc
      | some df => acc ++ [(g.name, df)])

/-- The per-file aggregation loop of `extract_waveform_data_form_dcm`
(lines 249-328): the groups are processed sequentially in declared order and
the loop body runs with no surrounding `try`, so the first uncaught
exception aborts the whole call. -/
def extract_waveform_data_form_dcm (custom : Bool)
    (relevant : Option (List (String × List String))) (timeCol : String)
    (groups : List WGroup) : Except String (List (String × Table)) :=
  groups.foldlM (accumGroup custom relevant timeCol) []

/-! ### Recording metadata (lines 22-41 and 220-247)

Datetimes are modelled as exact rational numbers of seconds on an absolute
scale; `datetime.timedelta(seconds = x)` addition is rational addition. -/

/-- Stands for `strftime("%Y-%m-%d %H:%M:%S.%f")`: an injective rendering of
the instant as a string (only the key structure of the fields and the value
carried matter to the properties below). -/
def fmtDatetime (t : ℚ) : String := "DT<" ++ toString t ++ ">"

/-- `format_datetime_fields` (lines 22-41): the two formatted timing fields,
keyed `START_DATETIME` and `END_DATETIME`. -/
def format_datetime_fields (start_datetime end_datetime : ℚ) : List (String × String) :=
  [("START_DATETIME", fmtDatetime start_datetime),
   ("END_DATETIME", fmtDatetime end_datetime)]

/-- The end datetime (lines 226-230):
`start + timedelta(seconds = float(num_of_samples - 1) / float(freq))`. -/
def endDatetime (start : ℚ) (freq : ℚ) (numOfSamples : ℕ) : ℚ :=
  start + ((numOfSamples : ℚ) - 1) / freq

/-- The timing-related fields of `content_info`. -/
structure ContentInfo where
  timing : List (String × String)
  duration : ℚ
  frequency : ℚ
  numberOfSamples : ℕ

/-- The `content_info` assembly (lines 220-247) restricted to its computed
timing fields: `duration = float(num_of_samples) / float(freq)` (line 222);
the timing keys are the two formatted datetimes when a content start
datetime is available and the two `UNKNOWN` sentinels otherwise (line 239). -/
def build_content_info (start : Option ℚ) (freq : ℚ) (numOfSamples : ℕ) :
    ContentInfo :=
  { timing :=
      match start with
      | some s => format_datetime_fields s (endDatetime s freq numOfSamples)
      | none => [("START", "UNKNOWN_START"), ("END", "UNKNOWN_END")]
    duration := (numOfSamples : ℚ) / freq
    frequency := freq
    numberOfSamples := numOfSamples }

/-! ## Helper lemmas -/

theorem except_map_error {ε α β : Type} (f : α → β) (e : ε) :
    (Except.error e : Except ε α).map f = .error e := rfl

theorem except_map_ok {ε α β : Type} (f : α → β) (a : α) :
    (Except.ok a : Except ε α).map f = .ok (f a) := rfl

theorem except_bind_error {ε α β : Type} (k : α → Except ε β) (e : ε) :
    (Except.error e : Except ε α) >>= k = .error e := rfl

theorem except_bind_ok {ε α β : Type} (k : α → Except ε β) (a : α) :
    (Except.ok a : Except ε α) >>= k = k a := rfl

theorem zipWith_getD {α β γ : Type} (f : α → β → γ) (d : γ) (d1 : α) (d2 : β)
    (l1 : List α) (l2 : List β) (j : Nat) (h1 : j < l1.length) (h2 : j < l2.length) :
    (List.zipWith f l1 l2).getD j d = f (l1.getD j d1) (l2.getD j d2) := by
  have hz : j < (List.zipWith f l1 l2).length := by
    simp [List.length_zipWith, lt_min_iff]; exact ⟨h1, h2⟩
  rw [List.getD_eq_getElem _ _ hz, List.getD_eq_getElem _ _ h1,
    List.getD_eq_getElem _ _ h2, List.getElem_zipWith]

theorem zip_getD {α β : Type} (d1 : α) (d2 : β) (l1 : List α) (l2 : List β)
    (j : Nat) (h1 : j < l1.length) (h2 : j < l2.length) :
    (l1.zip l2).getD j (d1, d2) = (l1.getD j d1, l2.getD j d2) :=
  zipWith_getD Prod.mk (d1, d2) d1 d2 l1 l2 j h1 h2

theorem chunks_length (c : Nat) : ∀ (r : Nat) (l : List Int),
    (chunks r c l).length = r := by
  intro r
  induction r with
  | zero => intro l; rfl
  | succ r ih => intro l; simp [chunks, ih]

/-! ## Claims -/

/-- C10: the recording metadata's timing fields do not have a fixed key set:
with a content start datetime available the record holds the keys
`START_DATETIME`/`END_DATETIME` (formatted timestamps) and no `START`/`END`
keys; without one it holds `START`/`END` with the sentinels `UNKNOWN_START`
and `UNKNOWN_END` and no `START_DATETIME`/`END_DATETIME` keys. -/
theorem timing_key_set (s freq : ℚ) (n : ℕ) :
    ((build_content_info (some s) freq n).timing.lookup "START_DATETIME"
        = some (fmtDatetime s)
      ∧ (build_content_info (some s) freq n).timing.lookup "END_DATETIME"
        = some (fmtDatetime (endDatetime s freq n))
      ∧ (build_content_info (some s) freq n).timing.lookup "START" = none
      ∧ (build_content_info (some s) freq n).timing.lookup "END" = none)
    ∧ ((build_content_info none freq n).timing.lookup "START"
        = some "UNKNOWN_START"
      ∧ (build_content_info none freq n).timing.lookup "END"
        = some "UNKNOWN_END"
      ∧ (build_content_info none freq n).timing.lookup "START_DATETIME" = none
      ∧ (build_content_info none freq n).timing.lookup "END_DATETIME" = none) := by
  exact ⟨⟨rfl, rfl, rfl, rfl⟩, rfl, rfl, rfl, rfl⟩

/-- C2, counterexample: with frequency 1 and sample count 2, the `DURATION`
field is `2` while `(num_of_samples - 1) / freq` is `1`, and the end
datetime for start `0` is `1` while `start + DURATION` is `2`: the claim
`duration = (n - 1)/f` (and hence `end = start + duration`) fails. -/
theorem duration_field_cex :
    (build_content_info (some 0) 1 2).duration = 2
    ∧ ((2 : ℚ) - 1) / 1 = 1
    ∧ endDatetime 0 1 2 = 1
    ∧ (0 : ℚ) + (build_content_info (some 0) 1 2).duration = 2
    ∧ (2 : ℚ) ≠ 1 := by
  norm_num [build_content_info, endDatetime]

/-- C2 (amended): for frequency `f > 0` and declared sample count `n`, the
`DURATION` field equals `n / f` (not `(n-1) / f`), and when a content start
datetime is available the `END_DATETIME` field is the formatted
`start + (n - 1) / f` (so the end differs from `start + duration` by
`1 / f`). -/
theorem duration_and_end_fields (s freq : ℚ) (n : ℕ) (hf : 0 < freq) :
    (build_content_info (some s) freq n).duration = (n : ℚ) / freq
    ∧ (build_content_info (some s) freq n).timing.lookup "END_DATETIME"
        = some (fmtDatetime (s + ((n : ℚ) - 1) / freq)) :=
  ⟨rfl, rfl⟩

/-- C2 witness: the amended statement instantiated at start `0`,
frequency `2`, sample count `4`. -/
theorem duration_and_end_fields_witness :
    (build_content_info (some 0) 2 4).duration = ((4 : ℕ) : ℚ) / 2
    ∧ (build_content_info (some 0) 2 4).timing.lookup "END_DATETIME"
        = some (fmtDatetime (0 + (((4 : ℕ) : ℚ) - 1) / 2)) :=
  duration_and_end_fields 0 2 4 (by norm_num)

/-- C5: `safe_extract_channel_def` is claimed never to propagate an
exception for malformed entries, but the `except` clause at line 133 catches
only `AttributeError`, `IndexError` and `TypeError`: when a numeric default
makes line 130 call `float()` on a non-numeric string value such as `"N/A"`,
the resulting `ValueError` escapes, contradicting the function's own
docstring ("Safely extracts values", "default value to return if extraction
fails"). This theorem evaluates the embedded function at that failing
input. -/
theorem safe_extract_valueerror_escapes :
    safe_extract_channel_def [[((0x003a, 0x0210), DVal.str "N/A" none)]]
      (0x003a, 0x0210) "1.0" false false
    = .error "ValueError: could not convert string to float: N/A" := rfl

/-- C6, counterexample: a 5-channel definition sequence whose sensitivity
tag is absent exactly for the channel at 0-based index 3 and numeric
elsewhere yields the placeholder `"UNK.1.0_4"` at index 3 — the loop counter
`idx` is 1-based, so the 4th channel's placeholder carries `4`, not the
claimed `"UNK.1.0_3"`. -/
theorem sensitivity_placeholder_index_cex :
    safe_extract_channel_def
        [[((0x003a, 0x0210), DVal.num 1)], [((0x003a, 0x0210), DVal.num 2)],
         [((0x003a, 0x0210), DVal.num 3)], [],
         [((0x003a, 0x0210), DVal.num 5)]]
        (0x003a, 0x0210) "1.0" false false
      = .ok [.num 1, .num 2, .num 3, .fallback "UNK.1.0_4", .num 5]
    ∧ "UNK.1.0_4" ≠ "UNK.1.0_3" :=
  ⟨rfl, by decide⟩

/-- C6 (amended): when the sensitivity tag is absent for the channel at
0-based index 3 of a 5-channel definition sequence and extraction succeeds
with numeric values for every other channel, the returned list has the
placeholder `"UNK.1.0_4"` at index 3 — the suffix being the failing
channel's 1-based index `4`, unique within the list — and the extracted
floats at every other index. -/
theorem sensitivity_placeholder_index (i0 i1 i2 i3 i4 : DItem) (q0 q1 q2 q4 : ℚ)
    (h0 : extractOne false false i0 (0x003a, 0x0210) = .ok (.num q0))
    (h1 : extractOne false false i1 (0x003a, 0x0210) = .ok (.num q1))
    (h2 : extractOne false false i2 (0x003a, 0x0210) = .ok (.num q2))
    (h3 : dget i3 (0x003a, 0x0210) = none)
    (h4 : extractOne false false i4 (0x003a, 0x0210) = .ok (.num q4)) :
    safe_extract_channel_def [i0, i1, i2, i3, i4] (0x003a, 0x0210) "1.0" false false
      = .ok [.num q0, .num q1, .num q2, .fallback "UNK.1.0_4", .num q4] := by
  have h3' : extractOne false false i3 (0x003a, 0x0210) = .caught := by
    simp [extractOne, h3]
  simp only [safe_extract_channel_def, safeExtractAux, h0, h1, h2, h3', h4]
  rfl

/-- C6 witness: the amended statement instantiated at a concrete sequence
with numeric sensitivities `1, 2, 3, 5` and an empty 4th item. -/
theorem sensitivity_placeholder_index_witness :
    safe_extract_channel_def
        [[((0x003a, 0x0210), DVal.num 1)], [((0x003a, 0x0210), DVal.num 2)],
         [((0x003a, 0x0210), DVal.num 3)], [],
         [((0x003a, 0x0210), DVal.num 6)]]
        (0x003a, 0x0210) "1.0" false false
      = .ok [.num 1, .num 2, .num 3, .fallback "UNK.1.0_4", .num 6] :=
  sensitivity_placeholder_index _ _ _ _ _ 1 2 3 6 rfl rfl rfl rfl rfl

theorem zipWith_ext {α β γ : Type} (f g : α → β → γ)
    (h : ∀ a b, f a b = g a b) :
    ∀ (l1 : List α) (l2 : List β), List.zipWith f l1 l2 = List.zipWith g l1 l2 := by
  intro l1
  induction l1 with
  | nil => intro l2; rfl
  | cons a l ih =>
    intro l2
    cases l2 with
    | nil => rfl
    | cons b l2 => simp [List.zipWith_cons_cons, h, ih]

theorem calibRow_eq_gainOffsetRow (b s k : List ℚ) (row : List Int) :
    calibRow b s k row = gainOffsetRow b s k row := by
  unfold calibRow gainOffsetRow
  exact zipWith_ext _ _ (fun r p => by ring) row (b.zip (s.zip k))

theorem customDecode_eq_libraryDecode (c : Nat) (buf : List Nat) (b s k : List ℚ) :
    customDecode c buf b s k = libraryDecode c buf b s k := by
  unfold customDecode libraryDecode
  cases h : fromBufferInt16 buf with
  | none => rfl
  | some flat =>
    have hrow : calibRow b s k = gainOffsetRow b s k :=
      funext (calibRow_eq_gainOffsetRow b s k)
    simp [hrow]

/-- C4: the manual custom-parser decode and the delegated library decode
(modelled from the spec, as pydicom's `waveform_array` is external to this
repository) produce the same result on every input, failing inputs
included, so selecting either strategy through the `custom_parser` flag
does not change the result. -/
theorem decode_strategies_equivalent (custom1 custom2 : Bool) (c : Nat)
    (buf : List Nat) (b s k : List ℚ) :
    decodeStrategy custom1 c buf b s k = decodeStrategy custom2 c buf b s k := by
  cases custom1 <;> cases custom2 <;>
    simp [decodeStrategy, customDecode_eq_libraryDecode]

/-- C3: for a channel group decoded by the custom parser whose int16 buffer
reshaped cleanly and whose baseline, sensitivity and correction-factor
vectors are numeric, entry `(i, j)` of the decoded matrix equals
`(raw[i][j] + baseline[j]) * sensitivity[j] * correction[j]`, the additive
baseline applied before the multiplicative scaling; `raw` is the reshape
`chunks` of the flat int16 buffer. -/
theorem custom_decode_formula (c : Nat) (buf : List Nat) (b s k : List ℚ)
    (flat : List Int) (M : List (List ℚ)) (i j : Nat)
    (hbuf : fromBufferInt16 buf = some flat)
    (hM : customDecode c buf b s k = .ok M)
    (hb : j < b.length) (hs : j < s.length) (hk : j < k.length)
    (hi : i < M.length)
    (hj : j < ((chunks (flat.length / c) c flat).getD i []).length) :
    (M.getD i []).getD j 0
      = ((((chunks (flat.length / c) c flat).getD i []).getD j 0 : Int) + b.getD j 0)
          * s.getD j 0 * k.getD j 0 := by
  simp only [customDecode, hbuf] at hM
  by_cases hc : c = 0
  · simp [hc] at hM
  · by_cases hmod : flat.length % c = 0
    · simp only [if_neg hc, hmod, ne_eq, not_true_eq_false, if_false] at hM
      have hMeq : (chunks (flat.length / c) c flat).map (calibRow b s k) = M := by
        simpa using hM
      subst hMeq
      have hi' : i < (chunks (flat.length / c) c flat).length := by
        simpa using hi
      rw [List.getD_eq_getElem _ _ hi, List.getElem_map]
      rw [List.getD_eq_getElem _ _ hi'] at hj
      rw [List.getD_eq_getElem _ _ hi']
      have hz2 : j < (s.zip k).length := by
        simp only [List.length_zip, lt_min_iff]; exact ⟨hs, hk⟩
      have hz : j < (b.zip (s.zip k)).length := by
        simp only [List.length_zip, lt_min_iff]; exact ⟨hb, hs, hk⟩
      unfold calibRow
      rw [zipWith_getD _ 0 0 (0, 0, 0) _ _ j hj hz]
      rw [zip_getD 0 (0, 0) b (s.zip k) j hb hz2]
      rw [zip_getD 0 0 s k j hs hk]
      push_cast
      ring
    · simp [if_neg hc, hmod] at hM

/-- C3 witness: the formula instantiated for a 2-channel group with buffer
`[1, 0, 254, 255, 3, 0, 4, 0]` (int16 values `1, -2, 3, 4`), baselines
`[1, 2]`, sensitivities `[2, 3]`, correction factors `[1, 1]`, at sample
row `0`, channel column `1`. -/
theorem custom_decode_formula_witness :
    (([[4, 0], [8, 18]] : List (List ℚ)).getD 0 []).getD 1 0
      = ((((chunks (([1, -2, 3, 4] : List Int).length / 2) 2 [1, -2, 3, 4]).getD 0 []).getD 1 0 : Int)
            + ([1, 2] : List ℚ).getD 1 0)
          * ([2, 3] : List ℚ).getD 1 0 * ([1, 1] : List ℚ).getD 1 0 :=
  custom_decode_formula 2 [1, 0, 254, 255, 3, 0, 4, 0] [1, 2] [2, 3] [1, 1]
    [1, -2, 3, 4] [[4, 0], [8, 18]] 0 1 rfl
    (by norm_num [customDecode, fromBufferInt16, int16OfBytes, chunks, calibRow])
    (by decide) (by decide) (by decide) (by decide) (by decide)

theorem arange_getD (stop step : ℚ) (i : Nat)
    (hi : i < (arange stop step).length) :
    (arange stop step).getD i 0 = (i : ℚ) * step := by
  unfold arange at hi ⊢
  rw [List.getD_eq_getElem _ _ hi]
  simp

/-- C8: for a decoded matrix with `r` rows and sampling frequency `f > 0`,
the generated time axis has exactly `r` entries `t[i] = i / f` (the
half-open interval `[0, r/f)` in steps of `1/f`), and the reconciliation
step truncates the time vector and the matrix to
`min (time length) (row count)` rows; `reconcile` is a total function, so
the reconciliation cannot raise. -/
theorem time_axis_reconciliation (f : ℚ) (r : ℕ) (hf : 0 < f) :
    (arange ((r : ℚ) / f) (1 / f)).length = r
    ∧ (∀ i, i < r → (arange ((r : ℚ) / f) (1 / f)).getD i 0 = (i : ℚ) / f)
    ∧ ∀ (time : List ℚ) (rows : List (List ℚ)),
        ((reconcile time rows).1).length = min time.length rows.length
        ∧ ((reconcile time rows).2).length = min time.length rows.length := by
  have hf0 : f ≠ 0 := ne_of_gt hf
  have hq : ((r : ℚ) / f) / (1 / f) = (r : ℚ) := by field_simp
  have hlen : (arange ((r : ℚ) / f) (1 / f)).length = r := by
    simp only [arange, List.length_map, List.length_range]
    rw [hq, Int.ceil_natCast, Int.toNat_natCast]
  refine ⟨hlen, ?_, ?_⟩
  · intro i hi
    have hi' : i < (arange ((r : ℚ) / f) (1 / f)).length := by
      rw [hlen]; exact hi
    rw [arange_getD _ _ i hi', mul_one_div]
  · intro time rows
    unfold reconcile
    by_cases h : time.length = rows.length
    · simp [h]
    · simp only [h, if_false, List.length_take]
      constructor <;> omega

/-- C8 witness: frequency `2`, row count `3`: three time points with
`t[1] = 1/2`; reconciling a longer time vector against a one-row matrix
truncates both to one row. -/
theorem time_axis_reconciliation_witness :
    (arange (((3 : ℕ) : ℚ) / 2) (1 / 2)).length = 3
    ∧ (arange (((3 : ℕ) : ℚ) / 2) (1 / 2)).getD 1 0 = ((1 : ℕ) : ℚ) / 2
    ∧ ((reconcile [0, 1] [[5]]).1.length
          = min ([(0 : ℚ), 1]).length ([[(5 : ℚ)]]).length
      ∧ (reconcile [0, 1] [[5]]).2.length
          = min ([(0 : ℚ), 1]).length ([[(5 : ℚ)]]).length) :=
  ⟨(time_axis_reconciliation 2 3 (by norm_num)).1,
   (time_axis_reconciliation 2 3 (by norm_num)).2.1 1 (by norm_num),
   (time_axis_reconciliation 2 3 (by norm_num)).2.2 [0, 1] [[5]]⟩

theorem dfCols_names (timeCol : String) (time : List ℚ) (labels : List String)
    (rows : List (List ℚ)) :
    (dfCols timeCol time labels rows).map Prod.fst = timeCol :: labels := by
  simp only [dfCols, List.map_cons, List.map_map]
  have h : (Prod.fst ∘ fun p : ℕ × String => (p.2, matCol rows p.1)) = Prod.snd :=
    rfl
  rw [h, List.enum_map_snd]

theorem map_fst_comp_pair {α β : Type} (f : α → β) (l : List α) :
    List.map (Prod.fst ∘ fun a => (a, f a)) l = l := by
  induction l with
  | nil => rfl
  | cons a l ih => simpa using ih

theorem filterDf_names (accepted : List String) (timeCol : String) (df : Table) :
    (filterDf accepted timeCol df).map Prod.fst
      = timeCol :: (df.map Prod.fst).filter
          (fun nm => accepted.any (fun a => startswith a nm)) := by
  simp only [filterDf, List.map_cons, List.map_map]
  rw [map_fst_comp_pair]

/-- C9: with an allow-list mapping supplied, a group whose entry is a list
of label prefixes keeps exactly the time column followed by the channel
columns whose label starts with one of the prefixes (provided no prefix
matches the time column's own name, as in the claim's scenario), and a
group with no entry in the mapping is dropped from the output entirely
(`continue`, line 320), not filtered to an empty table. -/
theorem channel_filter_allowlist :
    (∀ (custom : Bool) (m : List (String × List String)) (accepted : List String)
        (timeCol : String) (g : WGroup) (df : Table),
        m.lookup g.name = some accepted →
        (accepted.any (fun a => startswith a timeCol)) = false →
        processGroup custom (some m) timeCol g = .ok (some df) →
        df.map Prod.fst
          = timeCol :: g.labels.filter (fun l => accepted.any (fun a => startswith a l)))
    ∧ (∀ (custom : Bool) (m : List (String × List String)) (timeCol : String)
        (g : WGroup) (rows : List (List ℚ)),
        m.lookup g.name = none →
        decodeStrategy custom g.labels.length g.buf g.baseline g.sensitivity
            g.correction = .ok rows →
        processGroup custom (some m) timeCol g = .ok none) := by
  constructor
  · intro custom m accepted timeCol g df hlk htc hdf
    cases hdec : decodeStrategy custom g.labels.length g.buf g.baseline
        g.sensitivity g.correction with
    | error e => simp [processGroup, hdec] at hdf
    | ok rows =>
      simp only [processGroup, hdec, hlk, Except.ok.injEq, Option.some.injEq] at hdf
      rw [← hdf, filterDf_names, dfCols_names, List.filter_cons, htc]
      simp
  · intro custom m timeCol g rows hlk hdec
    simp [processGroup, hdec, hlk]

/-- C9 witness: scenario E — allow-list `{"PRESSURE": ["Ao"]}` on a
PRESSURE group with channels `AoP`, `LVP` keeps only the time column plus
`AoP`; an ECG group with no entry in the mapping is dropped (`.ok none`). -/
theorem channel_filter_allowlist_witness :
    ([("Time", [(0 : ℚ)]), ("AoP", [1])] : Table).map Prod.fst
      = "Time" :: (["AoP", "LVP"] : List String).filter
          (fun l => (["Ao"] : List String).any (fun a => startswith a l))
    ∧ processGroup true (some [("PRESSURE", ["Ao"])]) "Time"
        ⟨"ECG", 1, ["I"], [0], [1], [1], [3, 0]⟩ = .ok none :=
  ⟨channel_filter_allowlist.1 true [("PRESSURE", ["Ao"])] ["Ao"] "Time"
      ⟨"PRESSURE", 1, ["AoP", "LVP"], [0, 0], [1, 1], [1, 1], [1, 0, 2, 0]⟩
      [("Time", [0]), ("AoP", [1])] rfl (by decide)
      (by norm_num [processGroup, decodeStrategy, customDecode, fromBufferInt16,
        int16OfBytes, chunks, calibRow, arange, reconcile, dfCols, matCol,
        filterDf, startswith, List.lookup, List.enum, List.enumFrom,
        List.range_succ, List.find?, List.filter, List.isPrefixOf] ; rfl),
   channel_filter_allowlist.2 true [("PRESSURE", ["Ao"])] "Time"
      ⟨"ECG", 1, ["I"], [0], [1], [1], [3, 0]⟩ [[3]] rfl
      (by norm_num [decodeStrategy, customDecode, fromBufferInt16,
        int16OfBytes, chunks, calibRow])⟩

theorem foldlM_accum_abort (custom : Bool)
    (rel : Option (List (String × List String))) (tc : String)
    (g : WGroup) (e : String)
    (hg : processGroup custom rel tc g = .error e) :
    ∀ (pre : List WGroup),
      (∀ g' ∈ pre, ∃ o, processGroup custom rel tc g' = .ok o) →
      ∀ (post : List WGroup) (acc : List (String × Table)),
        List.foldlM (accumGroup custom rel tc) acc (pre ++ g :: post) = .error e := by
  intro pre
  induction pre with
  | nil =>
    intro _ post acc
    simp only [List.nil_append, List.foldlM_cons, accumGroup, hg,
      except_map_error, except_bind_error]
  | cons p pre ih =>
    intro hpre post acc
    obtain ⟨o, hp⟩ := hpre p (List.mem_cons_self p pre)
    simp only [List.cons_append, List.foldlM_cons, accumGroup, hp,
      except_map_ok, except_bind_ok]
    exact ih (fun g' hg' => hpre g' (List.mem_cons_of_mem p hg')) post _

/-- C1, counterexample: a file with two channel groups in which the first
group's buffer has 3 bytes (not a multiple of 2): the whole extraction
raises the frombuffer `ValueError`, so no decoded table is returned for the
conforming second group — the per-group loop (lines 251-326) has no
`try`/`except`, and the only handler in the code base is per file
(`main.py`, line 150). -/
theorem group_failure_aborts_file_cex :
    extract_waveform_data_form_dcm true none "Time"
        [⟨"PRESSURE", 1, ["P"], [0], [1], [1], [0, 0, 0]⟩,
         ⟨"ECG", 1, ["I"], [0], [1], [1], [7, 0]⟩]
      = .error "ValueError: buffer size must be a multiple of element size" := rfl

/-- C1 (amended): a failure while decoding one channel group propagates as
an uncaught exception and aborts the extraction of the entire file — after
any prefix of groups that processed without error, the first failing group
makes `extract_waveform_data_form_dcm` return that error, and no table of
any group (the later conforming ones included) is returned. -/
theorem group_failure_aborts_file (custom : Bool)
    (rel : Option (List (String × List String))) (tc : String)
    (pre post : List WGroup) (g : WGroup) (e : String)
    (hpre : ∀ g' ∈ pre, ∃ o, processGroup custom rel tc g' = .ok o)
    (hg : processGroup custom rel tc g = .error e) :
    extract_waveform_data_form_dcm custom rel tc (pre ++ g :: post) = .error e :=
  foldlM_accum_abort custom rel tc g e hg pre hpre post []

/-- C1 witness: the amended statement at a failing 3-byte-buffer group
followed by a conforming group. -/
theorem group_failure_aborts_file_witness :
    extract_waveform_data_form_dcm true none "Time"
        ([] ++ ⟨"PRESSURE", 1, ["P", "Q"], [0, 0], [1, 1], [1, 1], [1, 0, 2]⟩ ::
          [⟨"ECG", 1, ["I"], [0], [1], [1], [7, 0]⟩])
      = .error "ValueError: buffer size must be a multiple of element size" :=
  group_failure_aborts_file true none "Time" []
    [⟨"ECG", 1, ["I"], [0], [1], [1], [7, 0]⟩]
    ⟨"PRESSURE", 1, ["P", "Q"], [0, 0], [1, 1], [1, 1], [1, 0, 2]⟩
    "ValueError: buffer size must be a multiple of element size"
    (by simp) rfl

theorem fromBufferInt16_odd : ∀ (buf : List Nat), buf.length % 2 = 1 →
    fromBufferInt16 buf = none
  | [], h => by simp at h
  | [_], _ => rfl
  | lo :: hi :: rest, h => by
    have h' : rest.length % 2 = 1 := by
      simp only [List.length_cons] at h
      omega
    simp [fromBufferInt16, fromBufferInt16_odd rest h']

theorem fromBufferInt16_even : ∀ (buf : List Nat), buf.length % 2 = 0 →
    ∃ flat, fromBufferInt16 buf = some flat ∧ flat.length = buf.length / 2
  | [], _ => ⟨[], rfl, rfl⟩
  | [_], h => by simp at h
  | lo :: hi :: rest, h => by
    have h' : rest.length % 2 = 0 := by
      simp only [List.length_cons] at h
      omega
    obtain ⟨flat, hf, hl⟩ := fromBufferInt16_even rest h'
    refine ⟨int16OfBytes lo hi :: flat, ?_, ?_⟩
    · simp [fromBufferInt16, hf]
    · simp only [List.length_cons, hl]
      omega

/-- C7, counterexample: a file with two channel groups in which the first
group declares 3 channels but holds an 8-byte buffer (4 int16 samples, not
a multiple of 3): the reshape error is raised, but — contrary to the
claim's "fails the decode for that channel group only" — the uncaught
exception aborts the whole extraction and the conforming second group's
table is not returned either. -/
theorem buffer_layout_error_cex :
    extract_waveform_data_form_dcm true none "Time"
        [⟨"PRESSURE", 1, ["A", "B", "C"], [0, 0, 0], [1, 1, 1], [1, 1, 1],
            [1, 0, 2, 0, 3, 0, 4, 0]⟩,
         ⟨"ECG", 1, ["I"], [0], [1], [1], [9, 0]⟩]
      = .error "ValueError: cannot reshape array" := rfl

/-- C7 (amended): for a channel group decoded with the custom parser whose
buffer byte length is not a multiple of `channel_count * 2`, the decode of
that group fails with a `ValueError` (from `frombuffer` when the length is
odd, from `reshape` otherwise) rather than producing a truncated or
misaligned matrix; there being no per-group isolation, the error aborts the
extraction of the entire file, not only that group. -/
theorem buffer_layout_error_aborts (g : WGroup)
    (rel : Option (List (String × List String))) (tc : String)
    (pre post : List WGroup)
    (hc : 0 < g.labels.length)
    (hbad : g.buf.length % (2 * g.labels.length) ≠ 0)
    (hpre : ∀ g' ∈ pre, ∃ o, processGroup true rel tc g' = .ok o) :
    (∃ e, customDecode g.labels.length g.buf g.baseline g.sensitivity g.correction
        = .error e)
    ∧ ∃ e, extract_waveform_data_form_dcm true rel tc (pre ++ g :: post)
        = .error e := by
  have hdec : ∃ e, customDecode g.labels.length g.buf g.baseline g.sensitivity
      g.correction = .error e := by
    by_cases hpar : g.buf.length % 2 = 0
    · obtain ⟨flat, hf, hl⟩ := fromBufferInt16_even g.buf hpar
      have h2 : g.buf.length = 2 * flat.length := by omega
      have hmod : flat.length % g.labels.length ≠ 0 := by
        intro hmm
        apply hbad
        have hdvd : g.labels.length ∣ flat.length :=
          Nat.dvd_of_mod_eq_zero hmm
        have hd2 : 2 * g.labels.length ∣ g.buf.length := by
          rw [h2]
          exact mul_dvd_mul_left 2 hdvd
        exact Nat.mod_eq_zero_of_dvd hd2
      refine ⟨"ValueError: cannot reshape array", ?_⟩
      simp only [customDecode, hf]
      rw [if_neg (Nat.pos_iff_ne_zero.mp hc), if_pos hmod]
    · have hodd : g.buf.length % 2 = 1 := by omega
      exact ⟨"ValueError: buffer size must be a multiple of element size",
        by simp only [customDecode, fromBufferInt16_odd g.buf hodd]⟩
  obtain ⟨e, he⟩ := hdec
  have hproc : processGroup true rel tc g = .error e := by
    simp only [processGroup, decodeStrategy, if_true, he]
  exact ⟨⟨e, he⟩, ⟨e, foldlM_accum_abort true rel tc g e hproc pre hpre post []⟩⟩

/-- C7 witness: the amended statement at a 3-channel group with an 8-byte
buffer and no neighbouring groups. -/
theorem buffer_layout_error_aborts_witness :
    (∃ e, customDecode 3 [1, 0, 2, 0, 3, 0, 4, 0] [0, 0, 0] [1, 1, 1] [1, 1, 1]
        = .error e)
    ∧ ∃ e, extract_waveform_data_form_dcm true none "Time"
        ([] ++ ⟨"PRESSURE", 1, ["A", "B", "C"], [0, 0, 0], [1, 1, 1], [1, 1, 1],
            [1, 0, 2, 0, 3, 0, 4, 0]⟩ :: []) = .error e :=
  buffer_layout_error_aborts
    ⟨"PRESSURE", 1, ["A", "B", "C"], [0, 0, 0], [1, 1, 1], [1, 1, 1],
        [1, 0, 2, 0, 3, 0, 4, 0]⟩
    none "Time" [] [] (by decide) (by decide) (by simp)
